import Mathlib

set_option maxRecDepth 100000

/-!
Verification development for the log_analyzer repository.

The embedding models the JavaScript sources directly:
* a backtracking regular-expression engine with PCRE-style priority
  (leftmost match, greedy/lazy quantifiers, alternation tries the left
  branch first), used to embed every regex literal of the sources;
* the rule classifier `analyzeWithAI` of `src/backend/aiService.js`;
* the `/analyze` route handler of `src/backend/routes/analyzeRoute.js`;
* the Gemini-backed pipeline (redaction, SHA-256 fingerprint, file cache
  with TTL, JSON extraction and validation) that forms the second module
  of `src/backend/routes/analyzeRoute.js`;
* the second redactor `redactSensitive` of the unnamed source file.

Strings are modelled as `List Char`.  The external SHA-256 hash and the
external generative-model call are modelled as explicit function
parameters (they live in libraries outside this repository).
-/

namespace LogAnalyzer

/-! ## JS regular-expression engine -/

/-- Regex abstract syntax: character class, sequence, alternation,
greedy star, lazy star, word boundary, empty. -/
inductive RE where
  | eps
  | cls (p : Char → Bool)
  | seq (a b : RE)
  | alt (a b : RE)
  | starG (a : RE)
  | starL (a : RE)
  | wb

/-- JS `\w`: ASCII alphanumeric or underscore. -/
def isWordC (c : Char) : Bool := c.isAlphanum || c == '_'

def isWordO : Option Char → Bool
  | none => false
  | some c => isWordC c

/-- `\b` holds between a word char and a non-word char (or string edge). -/
def wbHolds (prev : Option Char) (s : List Char) : Bool :=
  isWordO prev != isWordO s.head?

/-- Backtracking matcher in continuation-passing style.  The continuation
receives the previous character and the rest of the input; the first
successful path (in PCRE priority order) wins, so the value returned for
the top-level continuation `fun _ rest => some rest` is the remainder
after the priority-first match.  `fuel` bounds iterations of unbounded
repetition; every starred sub-pattern of the embedded regexes consumes at
least one character per iteration (enforced by the length check), so any
fuel above the input length is exact. -/
def reM : Nat → RE → Option Char → List Char →
    (Option Char → List Char → Option (List Char)) → Option (List Char)
  | 0, _, _, _, _ => none
  | Nat.succ _, .eps, prev, s, k => k prev s
  | Nat.succ _, .cls p, _, s, k =>
    match s with
    | [] => none
    | c :: rest => if p c then k (some c) rest else none
  | Nat.succ _, .wb, prev, s, k => if wbHolds prev s then k prev s else none
  | Nat.succ fuel, .seq a b, prev, s, k =>
    reM fuel a prev s (fun p2 s2 => reM fuel b p2 s2 k)
  | Nat.succ fuel, .alt a b, prev, s, k =>
    (reM fuel a prev s k).orElse (fun _ => reM fuel b prev s k)
  | Nat.succ fuel, .starG a, prev, s, k =>
    (reM fuel a prev s (fun p2 s2 =>
      if s2.length < s.length then reM fuel (.starG a) p2 s2 k else none)).orElse
      (fun _ => k prev s)
  | Nat.succ fuel, .starL a, prev, s, k =>
    (k prev s).orElse (fun _ => reM fuel a prev s (fun p2 s2 =>
      if s2.length < s.length then reM fuel (.starL a) p2 s2 k else none))

/-- Fuel that is always sufficient for the embedded regexes: the fuel is
only a bound on the recursion depth of the matcher, which is at most the
size of the regex times the number of characters consumed plus one. -/
def defaultFuel (s : List Char) : Nat := 4000 * (s.length + 2)

/-- Try to match `re` at the current position; return the remainder after
the priority-first match. -/
def searchHere (re : RE) (prev : Option Char) (s : List Char) :
    Option (List Char) :=
  reM (defaultFuel s) re prev s (fun _ rest => some rest)

/-- JS `regex.test(s)`: does the regex match at some position? -/
def reTestAux (re : RE) : Option Char → List Char → Bool
  | prev, [] => (searchHere re prev []).isSome
  | prev, c :: t => (searchHere re prev (c :: t)).isSome || reTestAux re (some c) t

def reTest (re : RE) (s : List Char) : Bool := reTestAux re none s

/-- JS `s.replace(regex-with-g, repl)`: all non-overlapping matches found
left to right in the original string are replaced by `repl`.  The scan
state is (previous original character, remaining original suffix); after
a non-empty match the scan resumes right after the matched characters. -/
def reReplAux (re : RE) (repl : List Char) : Nat → Option Char → List Char → List Char
  | 0, _, s => s
  | Nat.succ _, prev, [] =>
    match searchHere re prev [] with
    | some _ => repl
    | none => []
  | Nat.succ fuel, prev, c :: t =>
    match searchHere re prev (c :: t) with
    | none => c :: reReplAux re repl fuel (some c) t
    | some rest =>
      let len := (c :: t).length - rest.length
      if len = 0 then repl ++ c :: reReplAux re repl fuel (some c) t
      else repl ++ reReplAux re repl fuel ((c :: t).take len).getLast? rest

def reRepl (re : RE) (repl : List Char) (s : List Char) : List Char :=
  reReplAux re repl (s.length + 1) none s

/-! ### Regex construction helpers -/

def chr (c : Char) : RE := .cls (fun x => x == c)

/-- Case-insensitive character (JS `/i` flag; all embedded literals are
ASCII, where JS case folding agrees with `Char.toLower`). -/
def chri (c : Char) : RE := .cls (fun x => x.toLower == c.toLower)

def litL : List Char → RE
  | [] => .eps
  | c :: t => .seq (chr c) (litL t)

def litiL : List Char → RE
  | [] => .eps
  | c :: t => .seq (chri c) (litiL t)

def lit (s : String) : RE := litL s.toList

def liti (s : String) : RE := litiL s.toList

def oneOf (l : List Char) : RE := .cls (fun x => l.contains x)

def seqL : List RE → RE
  | [] => .eps
  | r :: t => .seq r (seqL t)

def altL : List RE → RE
  | [] => .eps
  | [r] => r
  | r :: t => .alt r (altL t)

/-- Greedy `?`. -/
def opt (a : RE) : RE := .alt a .eps

/-- Greedy `+`. -/
def plus (a : RE) : RE := .seq a (.starG a)

/-- `a{n}` as `n` copies. -/
def repN : Nat → RE → RE
  | 0, _ => .eps
  | Nat.succ n, a => .seq a (repN n a)

/-- Greedy `a{n,}`. -/
def repAtLeast (n : Nat) (a : RE) : RE := .seq (repN n a) (.starG a)

/-- Greedy `a{0,n}` (tries more copies first, as JS does). -/
def upTo : Nat → RE → RE
  | 0, _ => .eps
  | Nat.succ n, a => .alt (.seq a (upTo n a)) .eps

/-- Greedy `a{m,n}`. -/
def repRange (m n : Nat) (a : RE) : RE := .seq (repN m a) (upTo (n - m) a)

/-! ### Character classes of the embedded regexes -/

def digC : RE := .cls Char.isDigit

/-- JS whitespace class `\\s`. -/
def jsWs (c : Char) : Bool :=
  [' ', '\t', '\n', '\x0b', '\x0c', '\r', '\u00A0', '\u1680',
   '\u2000', '\u2001', '\u2002', '\u2003', '\u2004', '\u2005',
   '\u2006', '\u2007', '\u2008', '\u2009', '\u200A', '\u2028',
   '\u2029', '\u202F', '\u205F', '\u3000', '\uFEFF'].contains c

/-- JS `.` (no `s` flag): anything but a line terminator. -/
def jsDot (c : Char) : Bool :=
  !(['\n', '\r', '\u2028', '\u2029'].contains c)

def lbrace : Char := Char.ofNat 123

def rbrace : Char := Char.ofNat 125

def squote : Char := Char.ofNat 39

theorem reTest_case_insensitive_check :
    reTest (liti ("abc")) (String.toList ("xxABCyy")) = true := by decide

theorem reRepl_global_check :
    reRepl (plus digC) (String.toList ("#")) (String.toList ("a12b345c")) =
      String.toList ("a#b#c") := by decide

/-! ## Redactor 1: `redactSensitiveInfo` (analyzeRoute.js, CONFIG.REDACT_PATTERNS)

The eight patterns are applied in object-insertion order, each replacing
every match with the single placeholder `[REDACTED]`. -/

/-- `[a-zA-Z0-9._%+-]` -/
def emailLocalC (c : Char) : Bool := c.isAlphanum || ['.', '_', '%', '+', '-'].contains c

/-- `[a-zA-Z0-9.-]` -/
def emailDomC (c : Char) : Bool := c.isAlphanum || ['.', '-'].contains c

/-- `[a-zA-Z0-9_\-]` -/
def keyCharC (c : Char) : Bool := c.isAlphanum || c == '_' || c == '-'

/-- `/(\d{1,3}\.){3}\d{1,3}/g` -/
def reIP1 : RE := .seq (repN 3 (.seq (repRange 1 3 digC) (chr '.'))) (repRange 1 3 digC)

/-- `/[a-zA-Z0-9._%+-]+@[a-zA-Z0-9.-]+\.[a-zA-Z]{2,}/g` -/
def reEmail1 : RE :=
  seqL [plus (.cls emailLocalC), chr '@', plus (.cls emailDomC), chr '.',
        repAtLeast 2 (.cls Char.isAlpha)]

/-- `/(?:key|api[_-]?key|token|secret)[=:]["']?([a-zA-Z0-9_\-]{20,})["']?/gi` -/
def reApiKey1 : RE :=
  seqL [altL [liti ("key"),
              seqL [liti ("api"), opt (oneOf ['_', '-']), liti ("key")],
              liti ("token"), liti ("secret")],
        oneOf ['=', ':'], opt (oneOf ['"', squote]),
        repAtLeast 20 (.cls keyCharC), opt (oneOf ['"', squote])]

/-- `/(https?:\/\/[^\s]+)/g` -/
def reUrl1 : RE :=
  seqL [lit ("http"), opt (chr 's'), lit ("://"), plus (.cls (fun c => !jsWs c))]

/-- `[\w\-\.]` -/
def pathCharC1 (c : Char) : Bool := isWordC c || c == '-' || c == '.'

/-- `/(\/[\w\-\.]+)+/g` -/
def reFilePath1 : RE := plus (.seq (chr '/') (plus (.cls pathCharC1)))

/-- `/\d{4}-\d{2}-\d{2}[T ]\d{2}:\d{2}:\d{2}(\.\d+)?(Z|[+-]\d{2}:?\d{2})?/g` -/
def reTimestamp1 : RE :=
  seqL [repN 4 digC, chr '-', repN 2 digC, chr '-', repN 2 digC,
        oneOf ['T', ' '], repN 2 digC, chr ':', repN 2 digC, chr ':', repN 2 digC,
        opt (.seq (chr '.') (plus digC)),
        opt (.alt (chr 'Z')
          (seqL [oneOf ['+', '-'], repN 2 digC, opt (chr ':'), repN 2 digC]))]

/-- `/\b(?:\d[ -]*?){13,16}\b/g` (the inner `[ -]*?` is lazy) -/
def reCreditCard1 : RE :=
  seqL [.wb, repRange 13 16 (.seq digC (.starL (oneOf [' ', '-']))), .wb]

/-- `/\b\d{3}[-.]?\d{2}[-.]?\d{4}\b/g` -/
def reSSN1 : RE :=
  seqL [.wb, repN 3 digC, opt (oneOf ['-', '.']), repN 2 digC,
        opt (oneOf ['-', '.']), repN 4 digC, .wb]

def REDACTED : List Char := String.toList ("[REDACTED]")

/-- `Object.values(CONFIG.REDACT_PATTERNS)` in insertion order:
IP, EMAIL, API_KEY, URL, FILE_PATH, TIMESTAMP, CREDIT_CARD, SSN. -/
def redactPatterns1 : List RE :=
  [reIP1, reEmail1, reApiKey1, reUrl1, reFilePath1, reTimestamp1,
   reCreditCard1, reSSN1]

/-- `redactSensitiveInfo` of analyzeRoute.js: fold the eight replacements
over the content. -/
def redactSensitiveInfo (content : List Char) : List Char :=
  redactPatterns1.foldl (fun acc re => reRepl re REDACTED acc) content

/-! ## Redactor 2: `redactSensitive` (unnamed source file) -/

/-- `/\b\d{1,3}(\.\d{1,3}){3}\b/g` -/
def reIP2 : RE :=
  seqL [.wb, repRange 1 3 digC, repN 3 (.seq (chr '.') (repRange 1 3 digC)), .wb]

/-- `[A-Za-z0-9._-]` -/
def pathCharC2 (c : Char) : Bool := c.isAlphanum || ['.', '_', '-'].contains c

/-- `/([A-Za-z]:)?(\/[A-Za-z0-9._-]+)+/g` -/
def rePath2 : RE :=
  .seq (opt (.seq (.cls Char.isAlpha) (chr ':')))
       (plus (.seq (chr '/') (plus (.cls pathCharC2))))

/-- `/(key|token|api)[=: ]+[A-Za-z0-9-_]{10,}/gi` -/
def reKey2 : RE :=
  seqL [altL [liti ("key"), liti ("token"), liti ("api")],
        plus (oneOf ['=', ':', ' ']), repAtLeast 10 (.cls keyCharC)]

/-- `/[A-Za-z0-9._%+-]+@[A-Za-z0-9.-]+\.[A-Z]{2,}/gi`; with the `i` flag
the trailing `[A-Z]{2,}` accepts any ASCII letter. -/
def reEmail2 : RE :=
  seqL [plus (.cls emailLocalC), chr '@', plus (.cls emailDomC), chr '.',
        repAtLeast 2 (.cls Char.isAlpha)]

/-- `/\d{4}-\d{2}-\d{2} \d{2}:\d{2}:\d{2}/g` -/
def reTime2 : RE :=
  seqL [repN 4 digC, chr '-', repN 2 digC, chr '-', repN 2 digC, chr ' ',
        repN 2 digC, chr ':', repN 2 digC, chr ':', repN 2 digC]

/-- `redactSensitive` of the unnamed source file: the five chained
`.replace` calls in source order. -/
def redactSensitive (text : List Char) : List Char :=
  let s1 := reRepl reIP2 (String.toList ("[REDACTED_IP]")) text
  let s2 := reRepl rePath2 (String.toList ("[REDACTED_PATH]")) s1
  let s3 := reRepl reKey2 (String.toList ("[REDACTED_KEY]")) s2
  let s4 := reRepl reEmail2 (String.toList ("[REDACTED_EMAIL]")) s3
  reRepl reTime2 (String.toList ("[REDACTED_TIME]")) s4

theorem redactSensitiveInfo_email_pass_check :
    redactSensitiveInfo (String.toList ("a@b.co@c.com")) =
      String.toList ("[REDACTED]@c.com") := by decide

theorem redactSensitive_email_pass_check :
    redactSensitive (String.toList ("a@b.co@c.com")) =
      String.toList ("[REDACTED_EMAIL]@c.com") := by decide


/-! ## Rule classifier: `analyzeWithAI` of src/backend/aiService.js -/

/-- One classifier record: the seven fields each `update()` assigns. -/
structure RuleAnalysis where
  issueType : String
  rootCause : String
  suggestedFix : List String
  severity : String
  category : String
  confidence : Nat
  relatedLogs : List String
deriving DecidableEq, Repr

/-- The initial values of the local variables of `analyzeWithAI`. -/
def defaultAnalysis : RuleAnalysis :=
  { issueType := "No critical issues detected"
    rootCause := "No obvious error signatures were found in the provided logs. The service appears healthy based on the available information."
    suggestedFix :=
      ["Continue monitoring logs for new errors or spikes in latency.",
       "Set up alerts on error rate, latency and resource usage if not already in place."]
    severity := "Low"
    category := "informational"
    confidence := 50
    relatedLogs := [] }

/-- `/\s(5\d{2})\s|500 Internal Server Error|HTTP 500/i` -/
def reHttp5xx : RE :=
  altL [seqL [.cls jsWs, chr '5', digC, digC, .cls jsWs],
        liti ("500 Internal Server Error"), liti ("HTTP 500")]

def http5xxAnalysis : RuleAnalysis :=
  { issueType := "HTTP 5xx server error"
    rootCause := "The logs show HTTP 5xx responses being returned to clients, indicating a server-side failure in handling requests."
    suggestedFix :=
      ["Inspect stack traces around the time of the 5xx responses to identify failing code paths.",
       "Check upstream dependencies (databases, external APIs) for errors or timeouts that could cause the server to fail.",
       "Add more structured logging (request id, user id, endpoint) around failing endpoints to narrow down the problem."]
    severity := "High"
    category := "runtime"
    confidence := 80
    relatedLogs := ["HTTP 500", "HTTP 502", "HTTP 503", "Unhandled exception"] }

/-- `/timeout|timed out|ESOCKETTIMEDOUT|ETIMEDOUT/i` -/
def reTimeoutP : RE :=
  altL [liti ("timeout"), liti ("timed out"), liti ("ESOCKETTIMEDOUT"),
        liti ("ETIMEDOUT")]

def timeoutAnalysis : RuleAnalysis :=
  { issueType := "Request or dependency timeout"
    rootCause := "The logs contain timeout errors, suggesting that a downstream dependency or network call is not responding within the expected time."
    suggestedFix :=
      ["Identify which external service or database call is timing out and measure its typical response time.",
       "Increase the timeout threshold only if the dependency is known to be slow and cannot be optimized.",
       "Add retries with backoff and better error handling around slow network calls."]
    severity := "High"
    category := "infrastructure"
    confidence := 75
    relatedLogs := ["ETIMEDOUT", "ESOCKETTIMEDOUT", "request timeout"] }

/-- `/ECONNREFUSED.*(postgres|mysql|mongo|database)|database connection failed|could not connect to server/i` -/
def reDbConn : RE :=
  altL [seqL [liti ("ECONNREFUSED"), .starG (.cls jsDot),
              altL [liti ("postgres"), liti ("mysql"), liti ("mongo"),
                    liti ("database")]],
        liti ("database connection failed"), liti ("could not connect to server")]

def dbConnAnalysis : RuleAnalysis :=
  { issueType := "Database connection failure"
    rootCause := "The application is unable to establish or maintain a connection to the database. This can be due to configuration errors, network issues, or the database server being down."
    suggestedFix :=
      ["Verify database host, port, username, password and database name in the application configuration or environment variables.",
       "Check if the database server is running and reachable from the application host (e.g., using ping or telnet).",
       "Confirm that firewall rules and security groups allow traffic between the application and the database."]
    severity := "Critical"
    category := "database"
    confidence := 85
    relatedLogs := ["ECONNREFUSED", "connection refused", "could not connect to server"] }

/-- `/(SQLSTATE|syntax error at or near|duplicate key value violates unique constraint|deadlock detected)/i` -/
def reDbQuery : RE :=
  altL [liti ("SQLSTATE"), liti ("syntax error at or near"),
        liti ("duplicate key value violates unique constraint"),
        liti ("deadlock detected")]

def dbQueryAnalysis : RuleAnalysis :=
  { issueType := "Database query error"
    rootCause := "The database is rejecting one or more queries, indicating problems such as invalid SQL syntax, constraint violations, or deadlocks."
    suggestedFix :=
      ["Inspect the failing SQL statement and verify table/column names, parameter types, and join conditions.",
       "Handle unique constraint violations by checking for existing records before inserts or using upserts where appropriate.",
       "If deadlocks occur, review transaction scope and lock usage to reduce contention."]
    severity := "High"
    category := "database"
    confidence := 80
    relatedLogs := ["SQLSTATE", "syntax error", "duplicate key", "deadlock detected"] }

/-- `/unauthorized|forbidden|401|403|invalid token|jwt/i` -/
def reAuth : RE :=
  altL [liti ("unauthorized"), liti ("forbidden"), lit ("401"), lit ("403"),
        liti ("invalid token"), liti ("jwt")]

def authAnalysis : RuleAnalysis :=
  { issueType := "Authentication or authorization failure"
    rootCause := "The logs show repeated authentication or authorization errors, suggesting invalid credentials, expired tokens, or misconfigured access control."
    suggestedFix :=
      ["Verify token issuance (expiration time, audience, issuer) and ensure the API is validating them correctly.",
       "Check role/permission mappings to make sure users have the required access for the actions they are performing.",
       "Add clearer error messages and correlation ids for failed auth requests to aid debugging."]
    severity := "Medium"
    category := "security"
    confidence := 70
    relatedLogs := ["401 Unauthorized", "403 Forbidden", "invalid token"] }

/-- `/out of memory|heap limit|JavaScript heap out of memory|ENOMEM/i` -/
def reOom : RE :=
  altL [liti ("out of memory"), liti ("heap limit"),
        liti ("JavaScript heap out of memory"), liti ("ENOMEM")]

def oomAnalysis : RuleAnalysis :=
  { issueType := "Out-of-memory condition"
    rootCause := "The process is running out of memory, which typically indicates a memory leak or workloads that exceed the available resources."
    suggestedFix :=
      ["Capture heap snapshots and analyze object retention to identify memory leaks.",
       "Review caching and in-memory data structures for unbounded growth.",
       "Increase memory limits for the service only after confirming that memory usage patterns are expected."]
    severity := "Critical"
    category := "performance"
    confidence := 85
    relatedLogs := ["heap out of memory", "ENOMEM", "Out of memory"] }

/-- `/exception|stack trace|unhandled rejection|fatal error|TypeError|ReferenceError/i` -/
def reGenericErr : RE :=
  altL [liti ("exception"), liti ("stack trace"), liti ("unhandled rejection"),
        liti ("fatal error"), liti ("TypeError"), liti ("ReferenceError")]

def genericErrAnalysis : RuleAnalysis :=
  { issueType := "Application runtime error"
    rootCause := "The logs show runtime exceptions being thrown by the application, which likely stem from unhandled edge cases, null values, or incorrect assumptions in the code."
    suggestedFix :=
      ["Review the stack trace to locate the exact function and line where the exception originates.",
       "Add input validation and null checks around the failing code path.",
       "Introduce structured error handling (try/catch, centralized error middleware) to catch and log exceptions consistently."]
    severity := "High"
    category := "runtime"
    confidence := 75
    relatedLogs := ["Unhandled exception", "TypeError", "ReferenceError", "stack trace"] }

/-- `/warn|deprecated|slow query|high latency/i` -/
def reWarnOnly : RE :=
  altL [liti ("warn"), liti ("deprecated"), liti ("slow query"),
        liti ("high latency")]

def warnOnlyAnalysis : RuleAnalysis :=
  { issueType := "Performance or warning signals detected"
    rootCause := "The logs primarily contain warnings or performance-related messages (such as slow queries or elevated latency) rather than hard failures."
    suggestedFix :=
      ["Identify the endpoints or queries that show the highest latency and profile them.",
       "Optimize slow database queries using indexes, query rewrites, or caching.",
       "Set SLOs (service level objectives) and alerting thresholds for latency and error rate."]
    severity := "Medium"
    category := "performance"
    confidence := 65
    relatedLogs := ["WARN", "slow query", "high latency"] }

/-- One entry of the `patterns` array. -/
structure Pattern where
  name : String
  re : RE
  update : RuleAnalysis

/-- The `patterns` array in source order. -/
def patterns : List Pattern :=
  [⟨"http_5xx", reHttp5xx, http5xxAnalysis⟩,
   ⟨"timeout", reTimeoutP, timeoutAnalysis⟩,
   ⟨"db_connection", reDbConn, dbConnAnalysis⟩,
   ⟨"db_query", reDbQuery, dbQueryAnalysis⟩,
   ⟨"auth", reAuth, authAnalysis⟩,
   ⟨"oom", reOom, oomAnalysis⟩,
   ⟨"generic_error", reGenericErr, genericErrAnalysis⟩,
   ⟨"warning_only", reWarnOnly, warnOnlyAnalysis⟩]

/-- `/error|fail(ed)?/i` (the fallback test after `patterns.find`). -/
def reErrorKw : RE :=
  .alt (liti ("error")) (.seq (liti ("fail")) (opt (liti ("ed"))))

def genericKeywordAnalysis : RuleAnalysis :=
  { issueType := "Generic error detected"
    rootCause := "The logs contain error keywords but do not match a more specific pattern. There is likely a failure that requires manual inspection of the stack trace and recent changes."
    suggestedFix :=
      ["Inspect error messages and stack traces around the time of failure.",
       "Correlate the error with recent code or configuration changes.",
       "Add structured logging (request id, user id, feature flags) to improve observability."]
    severity := "Medium"
    category := "runtime"
    confidence := 60
    relatedLogs := ["error", "failed", "stack trace"] }

/-- The body of `analyzeWithAI` after coercion: `patterns.find(p =>
p.match.test(text))`, first match wins; otherwise the generic error
keyword test; otherwise the defaults. -/
def classify (text : List Char) : RuleAnalysis :=
  match patterns.find? (fun p => reTest p.re text) with
  | some p => p.update
  | none =>
    if reTest reErrorKw text then genericKeywordAnalysis else defaultAnalysis

theorem classify_scenario_check :
    classify (String.toList ("2024-01-01 10:00:00 ECONNREFUSED connecting to postgres database")) =
      dbConnAnalysis := by decide


/-! ## JS values and the outer wrapper of aiService.analyzeWithAI -/

/-- JS primitive values that can reach `analyzeWithAI(logText)`. -/
inductive JSVal where
  | null
  | undefined
  | bool (b : Bool)
  | num (n : Int)
  | str (s : List Char)

/-- JS truthiness. -/
def jsFalsy : JSVal → Bool
  | .null => true
  | .undefined => true
  | .bool b => !b
  | .num n => n == 0
  | .str s => s.isEmpty

def jsToString : JSVal → List Char
  | .null => String.toList ("null")
  | .undefined => String.toList ("undefined")
  | .bool true => String.toList ("true")
  | .bool false => String.toList ("false")
  | .num n => (toString n).toList
  | .str s => s

/-- `(logText || '').toString()`: a falsy argument is replaced by the
empty string before coercion. -/
def coerceInput (v : JSVal) : List Char :=
  if jsFalsy v then [] else jsToString v

/-- Result shape of aiService.analyzeWithAI: the success branch carries
the analysis, the catch branch would carry `success: false` with an
error and no analysis. -/
structure AiServiceResult where
  success : Bool
  analysis : Option RuleAnalysis
  errMessage : Option String
deriving DecidableEq

/-- `analyzeWithAI` of src/backend/aiService.js.  Its try-block is total
over the modelled value domain (string coercion, regex tests and constant
assignments cannot throw), so the catch branch is never taken; the result
type retains the failure shape so that this can be stated. -/
def aiServiceAnalyzeWithAI (logText : JSVal) : AiServiceResult :=
  let text := coerceInput logText
  { success := true, analysis := some (classify text), errMessage := none }

/-! ## The /analyze route handler (first module of analyzeRoute.js) -/

/-- JS `String.prototype.trim` (both ends, `\s`-class whitespace). -/
def jsTrim (s : List Char) : List Char :=
  ((s.dropWhile jsWs).reverse.dropWhile jsWs).reverse

/-- The hard-coded fallback record of the route; `errorInfo?.message ||
default` replaces an absent or empty message by the default text. -/
def routeFallbackAnalysis (errMessage : Option String) : RuleAnalysis :=
  { issueType := "Analysis service unavailable"
    rootCause :=
      match errMessage with
      | some m =>
        if m = "" then
          "The AI analysis service is currently unavailable or returned an invalid response."
        else m
      | none =>
        "The AI analysis service is currently unavailable or returned an invalid response."
    suggestedFix :=
      ["Check the backend logs for AI service errors.",
       "Verify GEMINI_API_KEY and network access to the Gemini API."]
    severity := "Medium"
    category := "configuration"
    confidence := 50
    relatedLogs := ["AI service error", "Gemini API", "GEMINI_API_KEY"] }

/-- Response of the route as seen by the HTTP caller. -/
structure RouteResponse where
  status : Nat
  success : Bool
  analysis : Option RuleAnalysis
  fallback : Bool
  error : Option String
deriving DecidableEq

/-- The `/analyze` handler body after the file has been read:
empty-content check, then the classifier result is inspected; `!aiResult
|| aiResult.success === false` triggers the fallback response.  The
classifier result is passed as a parameter (`none` models an absent
result). -/
def routeAnalyze (logText : List Char) (aiResult : Option AiServiceResult) :
    RouteResponse :=
  if jsTrim logText = [] then
    { status := 400, success := false, analysis := none, fallback := false,
      error := some "The uploaded file is empty" }
  else
    match aiResult with
    | none =>
      { status := 200, success := true,
        analysis := some (routeFallbackAnalysis none), fallback := true,
        error := none }
    | some r =>
      if r.success then
        { status := 200, success := true, analysis := r.analysis,
          fallback := false, error := none }
      else
        { status := 200, success := true,
          analysis := some (routeFallbackAnalysis r.errMessage),
          fallback := true, error := none }

/-- The actual composition used by the route: it always calls the
pattern-based classifier on the file content. -/
def routeAnalyzeFull (logText : List Char) : RouteResponse :=
  routeAnalyze logText (some (aiServiceAnalyzeWithAI (.str logText)))


/-! ## JSON values and JSON.parse (fragment used by the AI adapter)

Numbers are modelled as integers: every concrete response text in this
development uses integer numbers, and the adapter only checks field
presence.  A fractional or exponent part makes the model parser fail. -/

inductive JVal where
  | str (s : String)
  | num (n : Int)
  | jsbool (b : Bool)
  | null
  | arr (xs : List JVal)
  | obj (fields : List (String × JVal))

/-- A parsed JSON object: key/value pairs in source order (JSON.parse
yields unique keys). -/
def JObj := List (String × JVal)

def hasKey (fields : List (String × JVal)) (k : String) : Bool :=
  fields.any (fun p => p.1 == k)

def jLookup (fields : List (String × JVal)) (k : String) : Option JVal :=
  (fields.find? (fun p => p.1 == k)).map (fun p => p.2)

/-- JSON whitespace. -/
def jsonWsC (c : Char) : Bool := [' ', '\t', '\n', '\r'].contains c

def skipWs (s : List Char) : List Char := s.dropWhile jsonWsC

def bslash : Char := Char.ofNat 92

def dquote : Char := Char.ofNat 34

def escMap (c : Char) : Option Char :=
  if c = dquote then some dquote
  else if c = bslash then some bslash
  else if c = '/' then some '/'
  else if c = 'n' then some '\n'
  else if c = 't' then some '\t'
  else if c = 'r' then some '\r'
  else none

/-- String body after the opening quote: returns content and remainder
after the closing quote. -/
def parseStrAux : List Char → Option (List Char × List Char)
  | [] => none
  | c :: t =>
    if c = dquote then some ([], t)
    else if c = bslash then
      match t with
      | [] => none
      | e :: t2 =>
        match escMap e with
        | none => none
        | some ec =>
          match parseStrAux t2 with
          | some (cs, r) => some (ec :: cs, r)
          | none => none
    else
      match parseStrAux t with
      | some (cs, r) => some (c :: cs, r)
      | none => none

def digitsToNat (l : List Char) : Nat :=
  l.foldl (fun n c => 10 * n + (c.toNat - 48)) 0

/-- Integer literal; a following `.`, `e` or `E` (a float) is outside the
modelled fragment and fails. -/
def parseNum (s : List Char) : Option (Int × List Char) :=
  let core := fun (u : List Char) (sign : Int) =>
    let ds := u.takeWhile Char.isDigit
    let rest := u.drop ds.length
    if ds.isEmpty then none
    else
      match rest with
      | [] => some (sign * Int.ofNat (digitsToNat ds), rest)
      | c :: _ =>
        if c = '.' || c = 'e' || c = 'E' then none
        else some (sign * Int.ofNat (digitsToNat ds), rest)
  match s with
  | '-' :: t => core t (-1)
  | _ => core s 1

mutual

def parseVal : Nat → List Char → Option (JVal × List Char)
  | 0, _ => none
  | Nat.succ fuel, s =>
    match s with
    | [] => none
    | c :: t =>
      if c = dquote then
        match parseStrAux t with
        | some (cs, r) => some (.str (String.mk cs), r)
        | none => none
      else if c = 'n' then
        if t.take 3 = String.toList ("ull") then some (.null, t.drop 3) else none
      else if c = 't' then
        if t.take 3 = String.toList ("rue") then some (.jsbool true, t.drop 3) else none
      else if c = 'f' then
        if t.take 4 = String.toList ("alse") then some (.jsbool false, t.drop 4) else none
      else if c = '[' then
        let t1 := skipWs t
        match t1 with
        | ']' :: t2 => some (.arr [], t2)
        | _ => parseArrItems fuel t1 []
      else if c = lbrace then
        let t1 := skipWs t
        match t1 with
        | c2 :: t2 => if c2 = rbrace then some (.obj [], t2) else parseObjItems fuel t1 []
        | [] => none
      else
        match parseNum s with
        | some (n, r) => some (.num n, r)
        | none => none

def parseArrItems : Nat → List Char → List JVal → Option (JVal × List Char)
  | 0, _, _ => none
  | Nat.succ fuel, s, acc =>
    match parseVal fuel (skipWs s) with
    | none => none
    | some (v, r) =>
      match skipWs r with
      | ',' :: r2 => parseArrItems fuel r2 (acc ++ [v])
      | ']' :: r2 => some (.arr (acc ++ [v]), r2)
      | _ => none

def parseObjItems : Nat → List Char → List (String × JVal) →
    Option (JVal × List Char)
  | 0, _, _ => none
  | Nat.succ fuel, s, acc =>
    match skipWs s with
    | [] => none
    | c :: t =>
      if c = dquote then
        match parseStrAux t with
        | none => none
        | some (key, r) =>
          match skipWs r with
          | ':' :: r2 =>
            match parseVal fuel (skipWs r2) with
            | none => none
            | some (v, r3) =>
              match skipWs r3 with
              | ',' :: r4 => parseObjItems fuel r4 (acc ++ [(String.mk key, v)])
              | c2 :: r4 =>
                if c2 = rbrace then some (.obj (acc ++ [(String.mk key, v)]), r4)
                else none
              | [] => none
          | _ => none
      else none

end

/-- `JSON.parse` over the modelled fragment: one value, possibly padded
by whitespace, nothing else. -/
def jsonParse (s : List Char) : Option JVal :=
  match parseVal (s.length + 2) (skipWs s) with
  | some (v, rest) => if skipWs rest = [] then some v else none
  | none => none

/-! ## AI adapter response handling (second module of analyzeRoute.js) -/

/-- The three distinct throw sites of the response-handling block, plus
the transport-level failure.  `noJson` and `badJson` are the spec's
InvalidResponse kind, `missingFields` its SchemaViolation kind. -/
inductive AdapterErr where
  | noJson
  | badJson
  | missingFields (missing : List String)
deriving DecidableEq

/-- `['issueType', 'rootCause', 'suggestedFix', 'severity', 'category',
'confidence']` -/
def requiredFields : List String :=
  ["issueType", "rootCause", "suggestedFix", "severity", "category", "confidence"]

/-- `/\{[\s\S]*\}/` -/
def jsonRE : RE :=
  .seq (chr lbrace) (.seq (.starG (.cls (fun _ => true))) (chr rbrace))

/-- The substring matched by the first (leftmost, priority-first) match
of a regex, as `text.match(regex)[0]` returns it. -/
def searchFirstAux (re : RE) : Option Char → List Char → Option (List Char)
  | prev, [] =>
    match searchHere re prev [] with
    | some _ => some []
    | none => none
  | prev, c :: t =>
    match searchHere re prev (c :: t) with
    | some rest => some ((c :: t).take ((c :: t).length - rest.length))
    | none => searchFirstAux re (some c) t

def searchFirst (re : RE) (s : List Char) : Option (List Char) :=
  searchFirstAux re none s

/-- `text.match(/\{[\s\S]*\}/)` of the adapter. -/
def extractJsonSpan (text : List Char) : Option (List Char) :=
  searchFirst jsonRE text

/-- The parse-and-validate block of `analyzeWithAI` (analyzeRoute.js):
extract the regex match, `JSON.parse` it, then filter the required
fields by the `in` test.  The `some _` non-object branch cannot arise (a
match of the regex starts with a brace); it maps to the same caught
parse failure the JS `in` operator would raise on a non-object. -/
def adapterParseValidate (text : List Char) : Except AdapterErr (List (String × JVal)) :=
  match extractJsonSpan text with
  | none => .error .noJson
  | some span =>
    match jsonParse span with
    | none => .error .badJson
    | some (.obj fields) =>
      let missing := requiredFields.filter (fun f => !(hasKey fields f))
      if missing.isEmpty then .ok fields else .error (.missingFields missing)
    | some _ => .error .badJson


/-! ## Configuration, cache and the Gemini pipeline (analyzeRoute.js) -/

/-- `CONFIG.MAX_LOG_SIZE = 5 * 1024 * 1024`. -/
def MAX_LOG_SIZE : Nat := 5 * 1024 * 1024

/-- `CONFIG.CACHE_TTL = 24 * 60 * 60 * 1000` milliseconds. -/
def CACHE_TTL : Nat := 24 * 60 * 60 * 1000

/-- `Buffer.byteLength(log, 'utf8')`. -/
def byteLen (s : List Char) : Nat := (s.map Char.utf8Size).sum

/-- `metadata` of a fresh analysis result. -/
structure GemMetadata where
  logSize : Nat
  redactedLogSize : Nat
  cacheHit : Bool

/-- What `saveToCache` writes: the spread of the result plus `cachedAt`
and `expiresAt` (timestamps as natural-number milliseconds). -/
structure StoredResult where
  success : Bool
  analysis : List (String × JVal)
  metadata : GemMetadata
  cachedAt : Nat
  expiresAt : Nat

/-- One cache file: its filesystem mtime (set by the write) and its JSON
content; reading the file back yields the stored record unchanged. -/
structure CacheEntry where
  mtime : Nat
  data : StoredResult

/-- The `.cache` directory: one entry per hash. -/
def CacheStore := List (String × CacheEntry)

def storeLookup (store : List (String × CacheEntry)) (hash : String) :
    Option CacheEntry :=
  (store.find? (fun p => p.1 == hash)).map (fun p => p.2)

def storePut : List (String × CacheEntry) → String → CacheEntry →
    List (String × CacheEntry)
  | [], h, e => [(h, e)]
  | (h2, e2) :: t, h, e =>
    if h2 == h then (h, e) :: t else (h2, e2) :: storePut t h e

/-- `getCachedResult(hash)` at time `now`: a missing entry is a miss, an
entry whose age `now - mtime` exceeds `CONFIG.CACHE_TTL` is treated as
expired and also reported as a miss; nothing is deleted or modified. -/
def getCachedResult (store : List (String × CacheEntry)) (hash : String)
    (now : Nat) : Option StoredResult :=
  match storeLookup store hash with
  | none => none
  | some e => if now - e.mtime > CACHE_TTL then none else some e.data

/-- `saveToCache(hash, result)` at time `now`: write (or overwrite) the
entry file with the spread record; the file mtime becomes `now`. -/
def saveToCache (store : List (String × CacheEntry)) (hash : String)
    (success : Bool) (analysis : List (String × JVal)) (metadata : GemMetadata)
    (now : Nat) : List (String × CacheEntry) :=
  storePut store hash
    { mtime := now
      data := { success := success, analysis := analysis,
                metadata := metadata, cachedAt := now,
                expiresAt := now + CACHE_TTL } }

/-- The error taxonomy realised by the throw sites of the Gemini
`analyzeWithAI`: empty/invalid input, oversized input, transport-level
failure (`!response || !response.text` or a thrown API call), and the
wrapped response-handling failures. -/
inductive GemErr where
  | emptyInput
  | tooLarge
  | transport
  | respFail (e : AdapterErr)
deriving DecidableEq

/-- The value `analyzeWithAI` (analyzeRoute.js) resolves with.  A fresh
success has no `cached` property (modelled `cached := false`); a cache
hit returns the stored record spread with `cached: true`. -/
structure GemResult where
  success : Bool
  analysis : Option (List (String × JVal))
  metadata : Option GemMetadata
  cached : Bool
  error : Option GemErr

/-- Observable work stages, in the order the pipeline performs them. -/
inductive Step where
  | redact
  | fingerprint
  | cacheGet
  | aiCall
  | cacheSave
deriving DecidableEq

def gemError (e : GemErr) : GemResult :=
  { success := false, analysis := none, metadata := none, cached := false,
    error := some e }

/-- `setField o k v`: JS property assignment by spread — an existing key
keeps its position with the new value, a new key is appended. -/
def setField : List (String × JVal) → String → JVal → List (String × JVal)
  | [], k, v => [(k, v)]
  | (k2, v2) :: t, k, v =>
    if k2 == k then (k2, v) :: t else (k2, v2) :: setField t k v

/-- The un-cached tail of the pipeline: call the model, parse and
validate, assemble the analysis object, store it. -/
def gemFresh (oracle : Option (List Char))
    (log redacted : List Char) (h : String)
    (store : List (String × CacheEntry)) (tStart tEnd : Nat)
    (steps : List Step) : GemResult × List (String × CacheEntry) × List Step :=
  match oracle with
  | none => (gemError .transport, store, steps ++ [.aiCall])
  | some text =>
    match adapterParseValidate text with
    | .error e => (gemError (.respFail e), store, steps ++ [.aiCall])
    | .ok fields =>
      let analysis :=
        setField (setField (setField fields "logHash" (.str h))
          "analyzedAt" (.num (Int.ofNat tEnd)))
          "processingTimeMs" (.num (Int.ofNat (tEnd - tStart)))
      let md : GemMetadata :=
        { logSize := log.length, redactedLogSize := redacted.length,
          cacheHit := false }
      let store2 := saveToCache store h true analysis md tEnd
      ({ success := true, analysis := some analysis, metadata := some md,
         cached := false, error := none },
       store2, steps ++ [.aiCall, .cacheSave])

/-- `analyzeWithAI(log, { force })` of analyzeRoute.js.  `hashFn` stands
for the external SHA-256 (`crypto.createHash`), `oracle` for the text the
external Gemini call resolves with (`none` = transport failure).
`tStart` is `Date.now()` at entry, `tEnd` at response handling.  Returns
the resolved value, the cache directory afterwards, and the trace of
work stages performed. -/
def gemAnalyzeWithAI (hashFn : List Char → String) (oracle : Option (List Char))
    (log : List Char) (force : Bool)
    (store : List (String × CacheEntry)) (tStart tEnd : Nat) :
    GemResult × List (String × CacheEntry) × List Step :=
  if jsTrim log = [] then (gemError .emptyInput, store, [])
  else if byteLen log > MAX_LOG_SIZE then (gemError .tooLarge, store, [])
  else
    let redacted := redactSensitiveInfo log
    let h := hashFn redacted
    if force then
      gemFresh oracle log redacted h store tStart tEnd
        [.redact, .fingerprint]
    else
      match getCachedResult store h tStart with
      | some st =>
        ({ success := st.success, analysis := some st.analysis,
           metadata := some st.metadata, cached := true, error := none },
         store, [.redact, .fingerprint, .cacheGet])
      | none =>
        gemFresh oracle log redacted h store tStart tEnd
          [.redact, .fingerprint, .cacheGet]


/-! ## Helper lemmas about the rule classifier -/

/-- A record with the seven core fields usable by a caller: non-empty
strings, a non-empty fix list, confidence within [0,100] (Nat, so the
lower bound is implicit). -/
def Populated (a : RuleAnalysis) : Prop :=
  a.issueType ≠ "" ∧ a.rootCause ≠ "" ∧ a.suggestedFix ≠ [] ∧
  a.severity ≠ "" ∧ a.category ≠ "" ∧ a.confidence ≤ 100

instance (a : RuleAnalysis) : Decidable (Populated a) := by
  unfold Populated; infer_instance

/-- The ten records the classifier can produce. -/
def classifyOutcomes : List RuleAnalysis :=
  [http5xxAnalysis, timeoutAnalysis, dbConnAnalysis, dbQueryAnalysis,
   authAnalysis, oomAnalysis, genericErrAnalysis, warnOnlyAnalysis,
   genericKeywordAnalysis, defaultAnalysis]

lemma classify_mem (t : List Char) : classify t ∈ classifyOutcomes := by
  unfold classify
  cases hf : patterns.find? (fun p => reTest p.re t) with
  | none => dsimp only; split <;> simp [classifyOutcomes]
  | some p =>
    have hp := List.mem_of_find?_eq_some hf
    dsimp only
    fin_cases hp <;> simp [classifyOutcomes]

lemma classify_populated (t : List Char) : Populated (classify t) := by
  have h := classify_mem t
  generalize hq : classify t = a at h ⊢
  fin_cases h <;> decide


lemma fallback_populated (e : Option String) : Populated (routeFallbackAnalysis e) := by
  cases e with
  | none => decide
  | some m =>
    by_cases hm : m = ""
    · subst hm; decide
    · refine ⟨?_, ?_, ?_, ?_, ?_, ?_⟩
      · show "Analysis service unavailable" ≠ ""
        decide
      · show (if m = "" then
          "The AI analysis service is currently unavailable or returned an invalid response."
          else m) ≠ ""
        rw [if_neg hm]
        exact hm
      · show ["Check the backend logs for AI service errors.",
              "Verify GEMINI_API_KEY and network access to the Gemini API."] ≠
            ([] : List String)
        decide
      · show "Medium" ≠ ""
        decide
      · show "configuration" ≠ ""
        decide
      · show (50 : Nat) ≤ 100
        decide

/-! ## Claim C5 -/

def scenarioInput : List Char :=
  String.toList ("2024-01-01 10:00:00 ECONNREFUSED connecting to postgres database")

/-- C5: on the input "2024-01-01 10:00:00 ECONNREFUSED connecting to
postgres database" the rule classifier returns the db_connection record:
category `database`, severity `Critical`, issueType "Database connection
failure"; neither the http_5xx nor the timeout rule (the only earlier
rules) matches this input, and `patterns.find` selects the
db_connection rule. -/
theorem c5_db_connection_scenario :
    (classify scenarioInput).category = "database" ∧
    (classify scenarioInput).severity = "Critical" ∧
    (classify scenarioInput).issueType = "Database connection failure" ∧
    reTest reHttp5xx scenarioInput = false ∧
    reTest reTimeoutP scenarioInput = false ∧
    (patterns.find? (fun p => reTest p.re scenarioInput)).map Pattern.name =
      some "db_connection" := by
  refine ⟨?_, ?_, ?_, ?_, ?_, ?_⟩ <;> decide

/-! ## Claim C4 -/

/-- C4: the classifier evaluates `patterns` top-to-bottom with
first-match-wins semantics; any text matched by the HTTP 5xx pattern is
classified by the http_5xx record (issueType "HTTP 5xx server error"),
not the generic runtime-error record, even when the generic exception
pattern also matches. -/
theorem c4_first_match_wins (t : List Char)
    (h5 : reTest reHttp5xx t = true) (_hg : reTest reGenericErr t = true) :
    classify t = http5xxAnalysis ∧
    http5xxAnalysis.issueType = "HTTP 5xx server error" ∧
    http5xxAnalysis ≠ genericErrAnalysis := by
  refine ⟨?_, by decide, by decide⟩
  have hfind : patterns.find? (fun p => reTest p.re t) =
      some ⟨"http_5xx", reHttp5xx, http5xxAnalysis⟩ := by
    unfold patterns
    exact List.find?_cons_of_pos _ (by simpa using h5)
  simp [classify, hfind]

def c4Input : List Char := String.toList ("a 502 b exception")

/-- Witness for C4 at a concrete input matched by both patterns. -/
theorem c4_first_match_wins_witness :
    reTest reHttp5xx c4Input = true ∧ reTest reGenericErr c4Input = true ∧
    classify c4Input = http5xxAnalysis :=
  ⟨by decide, by decide,
   (c4_first_match_wins c4Input (by decide) (by decide)).1⟩

/-! ## Claim C10 -/

/-- C10: the pattern classifier of aiService.js is total over the
modelled JS value domain (null, undefined, booleans, numbers, strings):
the input is coerced to a string, the result always has `success: true`
(the catch branch is unreachable), and the analysis record is populated:
non-empty issueType, rootCause, severity and category, a non-empty
suggestedFix list, and confidence within [0,100]. -/
theorem c10_classifier_total (v : JSVal) :
    (aiServiceAnalyzeWithAI v).success = true ∧
    (aiServiceAnalyzeWithAI v).analysis = some (classify (coerceInput v)) ∧
    Populated (classify (coerceInput v)) :=
  ⟨rfl, rfl, classify_populated _⟩

/-! ## Claim C2 -/

/-- C2: for non-empty input, whenever the classifier call fails (absent
result or `success: false`), the route still answers HTTP 200 with
`success: true`, a fully-populated fallback record and `fallback: true`;
the failure is never surfaced as a hard error. -/
theorem c2_route_fallback (log : List Char) (aiResult : Option AiServiceResult)
    (hne : jsTrim log ≠ [])
    (hfail : aiResult = none ∨ ∃ r, aiResult = some r ∧ r.success = false) :
    (routeAnalyze log aiResult).status = 200 ∧
    (routeAnalyze log aiResult).success = true ∧
    (routeAnalyze log aiResult).fallback = true ∧
    ∃ e, (routeAnalyze log aiResult).analysis = some (routeFallbackAnalysis e) ∧
      Populated (routeFallbackAnalysis e) := by
  rcases hfail with h | ⟨r, hr, hs⟩
  · subst h
    unfold routeAnalyze
    rw [if_neg hne]
    exact ⟨rfl, rfl, rfl, none, rfl, fallback_populated none⟩
  · subst hr
    unfold routeAnalyze
    rw [if_neg hne]
    simp only [hs]
    exact ⟨rfl, rfl, rfl, r.errMessage, rfl, fallback_populated r.errMessage⟩

def c2FailResult : AiServiceResult :=
  { success := false, analysis := none, errMessage := some "boom" }

/-- Witness for C2 at a concrete non-empty input and failing result. -/
theorem c2_route_fallback_witness :
    (routeAnalyze (String.toList ("database down")) (some c2FailResult)).success
        = true ∧
    (routeAnalyze (String.toList ("database down")) (some c2FailResult)).fallback
        = true :=
  ⟨(c2_route_fallback (String.toList ("database down")) (some c2FailResult)
      (by decide) (Or.inr ⟨c2FailResult, rfl, rfl⟩)).2.1,
   (c2_route_fallback (String.toList ("database down")) (some c2FailResult)
      (by decide) (Or.inr ⟨c2FailResult, rfl, rfl⟩)).2.2.1⟩


/-! ## Claim C3 -/

def c3Input : List Char := String.toList ("b@c.de1.2.3.4")

/-- C3: redaction is claimed idempotent for both implementations; the
claim fails for `redactSensitive`.  On "b@c.de1.2.3.4" the first pass
replaces the e-mail match "b@c.de" with `[REDACTED_EMAIL]`, whose closing
bracket creates a word boundary, so the `\b`-anchored IP rule — which
skipped "1.2.3.4" on the first pass because a word character preceded it
— matches on the second pass and changes the text again.
`redactSensitiveInfo` is unchanged by a second pass on the same input and
on the spec scenario line, as is `redactSensitive` on the scenario
line. -/
theorem c3_redaction_not_idempotent :
    redactSensitive c3Input = String.toList ("[REDACTED_EMAIL]1.2.3.4") ∧
    redactSensitive (redactSensitive c3Input) =
      String.toList ("[REDACTED_EMAIL][REDACTED_IP]") ∧
    redactSensitive (redactSensitive c3Input) ≠ redactSensitive c3Input ∧
    redactSensitiveInfo (redactSensitiveInfo c3Input) =
      redactSensitiveInfo c3Input ∧
    redactSensitiveInfo (redactSensitiveInfo scenarioInput) =
      redactSensitiveInfo scenarioInput ∧
    redactSensitive (redactSensitive scenarioInput) =
      redactSensitive scenarioInput := by
  refine ⟨?_, ?_, ?_, ?_, ?_, ?_⟩ <;> decide

/-! ## Claim C6 -/

/-- Modelled from the spec: "Extract the first balanced JSON object
substring from the raw response text" — scan to the first `{` and take
through the matching close brace by depth counting.  (Used only to
compare against the code; the concrete texts used here contain no braces
inside JSON strings.) -/
def takeBalanced : Nat → List Char → List Char → Option (List Char)
  | _, _, [] => none
  | depth, acc, c :: t =>
    if c = lbrace then takeBalanced (depth + 1) (c :: acc) t
    else if c = rbrace then
      if depth = 1 then some (c :: acc).reverse
      else takeBalanced (depth - 1) (c :: acc) t
    else takeBalanced depth (c :: acc) t

/-- Modelled from the spec (see `takeBalanced`). -/
def firstBalancedJson : List Char → Option (List Char)
  | [] => none
  | c :: t => if c = lbrace then takeBalanced 1 [c] t else firstBalancedJson t

/-- A response whose first balanced JSON object carries all six required
fields, followed by prose that contains one more closing brace. -/
def c6Text : List Char :=
  String.toList ("here: \x7b\"issueType\":\"a\",\"rootCause\":\"b\",\"suggestedFix\":[\"s\"],\"severity\":\"Low\",\"category\":\"c\",\"confidence\":50\x7d end \x7d")

def c6Obj : List Char :=
  String.toList ("\x7b\"issueType\":\"a\",\"rootCause\":\"b\",\"suggestedFix\":[\"s\"],\"severity\":\"Low\",\"category\":\"c\",\"confidence\":50\x7d")

def c6Fields : List (String × JVal) :=
  [("issueType", .str "a"), ("rootCause", .str "b"),
   ("suggestedFix", .arr [.str "s"]), ("severity", .str "Low"),
   ("category", .str "c"), ("confidence", .num 50)]

/-- C6 counterexample: the adapter does not extract the first balanced
JSON object.  On `c6Text` the code's regex `\{[\s\S]*\}` greedily spans
from the first `{` to the last `}`, the span fails `JSON.parse`, and the
call fails with the InvalidResponse-kind error — although the first
balanced JSON object exists, parses, and contains every required field,
so under the claimed behaviour the call would succeed. -/
theorem c6_counterexample :
    adapterParseValidate c6Text = .error .badJson ∧
    extractJsonSpan c6Text ≠ firstBalancedJson c6Text ∧
    firstBalancedJson c6Text = some c6Obj ∧
    jsonParse c6Obj = some (.obj c6Fields) ∧
    requiredFields.all (fun f => hasKey c6Fields f) = true := by
  refine ⟨by rfl, by decide, by rfl, by rfl, by rfl⟩

lemma adapter_ok_has_required (text : List Char) (fields : List (String × JVal))
    (h : adapterParseValidate text = .ok fields) :
    requiredFields.all (fun f => hasKey fields f) = true := by
  unfold adapterParseValidate at h
  cases hs : extractJsonSpan text with
  | none => rw [hs] at h; simp at h
  | some span =>
    rw [hs] at h
    dsimp only at h
    cases hp : jsonParse span with
    | none => rw [hp] at h; simp at h
    | some v =>
      rw [hp] at h
      cases v with
      | obj fields2 =>
        dsimp only at h
        split at h
        case isTrue hm =>
          injection h with h2
          subst h2
          rw [List.all_eq_true]
          intro f hf
          by_contra hk
          have hmem : f ∈ requiredFields.filter (fun f => !(hasKey fields2 f)) :=
            List.mem_filter.mpr ⟨hf, by simp [Bool.not_eq_true] at hk; simp [hk]⟩
          rw [List.isEmpty_iff] at hm
          rw [hm] at hmem
          exact absurd hmem (List.not_mem_nil f)
        case isFalse => simp at h
      | str s => simp at h
      | num n => simp at h
      | jsbool b => simp at h
      | null => simp at h
      | arr xs => simp at h

lemma adapter_err_missing (text : List Char) (m : List String)
    (h : adapterParseValidate text = .error (.missingFields m)) :
    m ≠ [] ∧ ∃ span fields, extractJsonSpan text = some span ∧
      jsonParse span = some (.obj fields) ∧
      m = requiredFields.filter (fun f => !(hasKey fields f)) := by
  unfold adapterParseValidate at h
  cases hs : extractJsonSpan text with
  | none => rw [hs] at h; simp at h
  | some span =>
    rw [hs] at h
    dsimp only at h
    cases hp : jsonParse span with
    | none => rw [hp] at h; simp at h
    | some v =>
      rw [hp] at h
      cases v with
      | obj fields2 =>
        dsimp only at h
        split at h
        case isTrue => simp at h
        case isFalse hm =>
          injection h with h2
          injection h2 with h3
          subst h3
          refine ⟨?_, span, fields2, rfl, hp, rfl⟩
          intro hnil
          rw [List.isEmpty_iff] at hm
          exact hm hnil
      | str s => simp at h
      | num n => simp at h
      | jsbool b => simp at h
      | null => simp at h
      | arr xs => simp at h

/-- The suffix of `t` after its last `}` (absent when `t` has no `}`). -/
def afterLastBrace : List Char → Option (List Char)
  | [] => none
  | c :: u =>
    match afterLastBrace u with
    | some r => some r
    | none => if c = rbrace then some u else none

/-- The prefix of `t` through its last `}` (absent when `t` has no `}`). -/
def upToLastBrace : List Char → Option (List Char)
  | [] => none
  | c :: u =>
    match upToLastBrace u with
    | some p => some (c :: p)
    | none => if c = rbrace then some [c] else none

/-- The "first `{` through the last `}`" reading of the greedy regex
`\{[\s\S]*\}`: the span starts at the first `{` (a match exists exactly
when some `}` follows it) and runs through the last `}` of the text. -/
def spanFirstToLast : List Char → Option (List Char)
  | [] => none
  | c :: t =>
    if c = lbrace then
      match upToLastBrace t with
      | some p => some (c :: p)
      | none => none
    else spanFirstToLast t

/-- Priority-ordered try of every split point, deepest first — the
backtracking behaviour of a greedy `[\s\S]*` before its continuation. -/
def sufTry : Option Char → List Char →
    (Option Char → List Char → Option (List Char)) → Option (List Char)
  | prev, [], k => k prev []
  | prev, c :: u, k => (sufTry (some c) u k).orElse (fun _ => k prev (c :: u))

lemma reM_starG_any (fuel : Nat) (prev : Option Char) (s : List Char)
    (k : Option Char → List Char → Option (List Char))
    (hf : fuel ≥ s.length + 1) :
    reM fuel (.starG (.cls (fun _ => true))) prev s k = sufTry prev s k := by
  induction s generalizing fuel prev with
  | nil =>
    obtain ⟨f, rfl⟩ : ∃ f, fuel = f + 1 := ⟨fuel - 1, by omega⟩
    cases f with
    | zero => rfl
    | succ g => rfl
  | cons c t ih =>
    obtain ⟨f, rfl⟩ : ∃ f, fuel = f + 1 := ⟨fuel - 1, by omega⟩
    have hf1 : f ≥ t.length + 1 := by
      simp only [List.length_cons] at hf
      omega
    obtain ⟨g, rfl⟩ : ∃ g, f = g + 1 := ⟨f - 1, by omega⟩
    calc reM (g + 1 + 1) (.starG (.cls (fun _ => true))) prev (c :: t) k
        = (if t.length < (c :: t).length then
            reM (g + 1) (.starG (.cls (fun _ => true))) (some c) t k
           else none).orElse (fun _ => k prev (c :: t)) := rfl
      _ = (reM (g + 1) (.starG (.cls (fun _ => true))) (some c) t k).orElse
            (fun _ => k prev (c :: t)) := by
          rw [if_pos (by simp)]
      _ = (sufTry (some c) t k).orElse (fun _ => k prev (c :: t)) := by
          rw [ih (g + 1) (some c) hf1]
      _ = sufTry prev (c :: t) k := rfl

lemma sufTry_rbrace (g : Nat) (prev : Option Char) (t : List Char) :
    sufTry prev t
      (fun p3 s3 => reM (g + 1) (.cls (fun x => x == rbrace)) p3 s3
        (fun _ rest => some rest)) = afterLastBrace t := by
  induction t generalizing prev with
  | nil => rfl
  | cons c u ih =>
    simp only [sufTry]
    rw [ih (some c)]
    cases hau : afterLastBrace u with
    | some r => simp [afterLastBrace, hau, Option.orElse]
    | none =>
      simp only [afterLastBrace, hau, Option.orElse]
      by_cases hc : c = rbrace
      · simp [reM, hc]
      · simp [reM, hc, show (c == rbrace) = false from by simpa using hc]

lemma searchHere_jsonRE (prev : Option Char) (s : List Char) :
    searchHere jsonRE prev s =
      match s with
      | [] => none
      | c :: t => if c = lbrace then afterLastBrace t else none := by
  cases s with
  | nil => rfl
  | cons c t =>
    obtain ⟨g, hg⟩ : ∃ g, defaultFuel (c :: t) = Nat.succ (Nat.succ (Nat.succ g)) :=
      ⟨defaultFuel (c :: t) - 3, by unfold defaultFuel; omega⟩
    have hbig : Nat.succ g ≥ t.length + 1 := by
      have h5 : (c :: t).length = t.length + 1 := List.length_cons c t
      have h4 : defaultFuel (c :: t) = 4000 * (t.length + 3) := by
        unfold defaultFuel
        rw [h5]
      omega
    unfold searchHere
    rw [hg]
    show reM (Nat.succ (Nat.succ (Nat.succ g))) jsonRE prev (c :: t)
        (fun _ rest => some rest) =
      if c = lbrace then afterLastBrace t else none
    by_cases hc : c = lbrace
    · rw [if_pos hc]
      calc reM (Nat.succ (Nat.succ (Nat.succ g))) jsonRE prev (c :: t)
            (fun _ rest => some rest)
          = (if (c == lbrace) = true then
              reM (Nat.succ (Nat.succ g))
                (.seq (.starG (.cls (fun _ => true))) (chr rbrace))
                (some c) t (fun _ rest => some rest)
            else none) := rfl
        _ = reM (Nat.succ (Nat.succ g))
              (.seq (.starG (.cls (fun _ => true))) (chr rbrace))
              (some c) t (fun _ rest => some rest) := by
            rw [if_pos (by simpa using hc)]
        _ = reM (Nat.succ g) (.starG (.cls (fun _ => true))) (some c) t
              (fun p3 s3 => reM (Nat.succ g) (chr rbrace) p3 s3
                (fun _ rest => some rest)) := rfl
        _ = sufTry (some c) t
              (fun p3 s3 => reM (Nat.succ g) (chr rbrace) p3 s3
                (fun _ rest => some rest)) := reM_starG_any _ _ _ _ hbig
        _ = afterLastBrace t := sufTry_rbrace g (some c) t
    · rw [if_neg hc]
      calc reM (Nat.succ (Nat.succ (Nat.succ g))) jsonRE prev (c :: t)
            (fun _ rest => some rest)
          = (if (c == lbrace) = true then
              reM (Nat.succ (Nat.succ g))
                (.seq (.starG (.cls (fun _ => true))) (chr rbrace))
                (some c) t (fun _ rest => some rest)
            else none) := rfl
        _ = none := by rw [if_neg (by simpa using hc)]

lemma afterLast_upTo (t : List Char) :
    (afterLastBrace t = none → upToLastBrace t = none) ∧
    (∀ rest, afterLastBrace t = some rest →
      ∃ p, upToLastBrace t = some p ∧ t = p ++ rest) := by
  induction t with
  | nil =>
    constructor
    · intro _
      rfl
    · intro rest h
      simp [afterLastBrace] at h
  | cons c u ih =>
    constructor
    · intro h
      unfold afterLastBrace at h
      unfold upToLastBrace
      cases hau : afterLastBrace u with
      | some r => rw [hau] at h; simp at h
      | none =>
        rw [hau] at h
        rw [ih.1 hau]
        by_cases hc : c = rbrace
        · rw [if_pos hc] at h; simp at h
        · rw [if_neg hc] at h
          simp [if_neg hc]
    · intro rest h
      unfold afterLastBrace at h
      unfold upToLastBrace
      cases hau : afterLastBrace u with
      | some r =>
        rw [hau] at h
        injection h with h2
        subst h2
        obtain ⟨p, hp, hsplit⟩ := ih.2 r hau
        rw [hp]
        exact ⟨c :: p, rfl, by rw [List.cons_append, ← hsplit]⟩
      | none =>
        rw [hau] at h
        rw [ih.1 hau]
        by_cases hc : c = rbrace
        · rw [if_pos hc] at h
          injection h with h2
          subst h2
          exact ⟨[c], by rw [if_pos hc], rfl⟩
        · rw [if_neg hc] at h; simp at h

lemma searchFirstAux_jsonRE_none (prev : Option Char) (t : List Char)
    (hnb : afterLastBrace t = none) :
    searchFirstAux jsonRE prev t = none := by
  induction t generalizing prev with
  | nil =>
    unfold searchFirstAux
    rw [searchHere_jsonRE]
  | cons c u ih =>
    have hnu : afterLastBrace u = none := by
      unfold afterLastBrace at hnb
      cases hau : afterLastBrace u with
      | some r => rw [hau] at hnb; simp at hnb
      | none => rfl
    unfold searchFirstAux
    rw [searchHere_jsonRE]
    dsimp only
    by_cases hc : c = lbrace
    · rw [if_pos hc]
      have hnn : afterLastBrace u = none := hnu
      rw [hnn]
      exact ih (some c) hnu
    · rw [if_neg hc]
      exact ih (some c) hnu

/-- The adapter's extraction `text.match(/\{[\s\S]*\}/)` returns exactly
the substring from the first `{` of the response text through its last
`}`, and nothing when no such pair exists — for every text. -/
theorem extractJsonSpan_eq_spanFirstToLast (text : List Char) :
    extractJsonSpan text = spanFirstToLast text := by
  suffices h : ∀ prev, searchFirstAux jsonRE prev text = spanFirstToLast text
    from h none
  induction text with
  | nil =>
    intro prev
    unfold searchFirstAux
    rw [searchHere_jsonRE]
    rfl
  | cons c t ih =>
    intro prev
    unfold searchFirstAux
    rw [searchHere_jsonRE]
    dsimp only
    by_cases hc : c = lbrace
    · rw [if_pos hc]
      cases hab : afterLastBrace t with
      | none =>
        rw [searchFirstAux_jsonRE_none (some c) t hab]
        unfold spanFirstToLast
        rw [if_pos hc, (afterLast_upTo t).1 hab]
      | some rest =>
        obtain ⟨p, hp, hsplit⟩ := (afterLast_upTo t).2 rest hab
        subst hsplit
        dsimp only
        have hlen : (c :: (p ++ rest)).length - rest.length = p.length + 1 := by
          simp only [List.length_cons, List.length_append]
          omega
        rw [hlen, List.take_succ_cons, List.take_left]
        unfold spanFirstToLast
        rw [if_pos hc, hp]
    · rw [if_neg hc]
      unfold spanFirstToLast
      rw [if_neg hc]
      exact ih (some c)

/-- C6 amended: the adapter extracts the greedy `\{[\s\S]*\}` match —
for every text, exactly the substring from the first `{` through the last
`}` — which need not be the first balanced JSON object; with that
extraction rule the claim's error behaviour holds: no span →
InvalidResponse-kind `noJson`; unparsable span → InvalidResponse-kind
`badJson`; parsed object with missing required fields → SchemaViolation
naming exactly the missing fields (and the list is non-empty); a success
carries every required field — partial parsed output is never returned as
success. -/
theorem c6_amended :
    (∀ text, extractJsonSpan text = spanFirstToLast text) ∧
    (∀ text, extractJsonSpan text = none →
      adapterParseValidate text = .error .noJson) ∧
    (∀ text span, extractJsonSpan text = some span → jsonParse span = none →
      adapterParseValidate text = .error .badJson) ∧
    (∀ text m, adapterParseValidate text = .error (.missingFields m) →
      m ≠ [] ∧ ∃ span fields, extractJsonSpan text = some span ∧
        jsonParse span = some (.obj fields) ∧
        m = requiredFields.filter (fun f => !(hasKey fields f))) ∧
    (∀ text fields, adapterParseValidate text = .ok fields →
      requiredFields.all (fun f => hasKey fields f) = true) := by
  refine ⟨extractJsonSpan_eq_spanFirstToLast, ?_, ?_, ?_, ?_⟩
  · intro text hs
    unfold adapterParseValidate
    rw [hs]
  · intro text span hs hp
    unfold adapterParseValidate
    rw [hs]
    dsimp only
    rw [hp]
  · exact adapter_err_missing
  · exact adapter_ok_has_required

def c6NoJsonText : List Char := String.toList ("no braces at all")

def c6BadText : List Char := String.toList ("\x7bnot json\x7d")

def c6MissingText : List Char :=
  String.toList ("\x7b\"issueType\":\"a\",\"severity\":\"Low\"\x7d")

/-- Witness for C6 amended, discharging each hypothesis at concrete
response texts. -/
theorem c6_amended_witness :
    adapterParseValidate c6NoJsonText = .error .noJson ∧
    adapterParseValidate c6BadText = .error .badJson ∧
    ((requiredFields.filter
        (fun f => !(hasKey [("issueType", JVal.str "a"), ("severity", JVal.str "Low")] f)))
      ≠ []) ∧
    requiredFields.all (fun f => hasKey c6Fields f) = true :=
  ⟨c6_amended.2.1 c6NoJsonText rfl,
   c6_amended.2.2.1 c6BadText (String.toList ("\x7bnot json\x7d")) rfl rfl,
   by
    have h := (c6_amended.2.2.2.1 c6MissingText
      ["rootCause", "suggestedFix", "category", "confidence"] rfl)
    rcases h with ⟨hne, span, fields, hs, hp, hm⟩
    have hs2 : span = String.toList ("\x7b\"issueType\":\"a\",\"severity\":\"Low\"\x7d") := by
      have := hs
      rw [show extractJsonSpan c6MissingText =
        some (String.toList ("\x7b\"issueType\":\"a\",\"severity\":\"Low\"\x7d")) from rfl] at this
      exact (Option.some.inj this).symm
    subst hs2
    have hp2 : fields = [("issueType", JVal.str "a"), ("severity", JVal.str "Low")] := by
      rw [show jsonParse (String.toList ("\x7b\"issueType\":\"a\",\"severity\":\"Low\"\x7d")) =
        some (.obj [("issueType", JVal.str "a"), ("severity", JVal.str "Low")]) from rfl] at hp
      injection hp with h2
      injection h2 with h3
      exact h3.symm
    subst hp2
    rw [← hm]
    simp,
   c6_amended.2.2.2.2 (String.toList ("here: ") ++ c6Obj) c6Fields rfl⟩


/-! ## Claim C1 -/

def c1Resp : List Char :=
  String.toList ("\x7b\"issueType\":\"a\",\"rootCause\":\"b\",\"suggestedFix\":[\"s\"],\"severity\":\"High\",\"category\":\"c\",\"confidence\":150,\"relatedLogs\":[\"r\"]\x7d")

/-- One full pipeline run whose model response carries `confidence: 150`:
the response passes validation (all six required fields are present) and
is returned to the caller unchanged. -/
def c1Run : GemResult × List (String × CacheEntry) × List Step :=
  gemAnalyzeWithAI (fun _ => "h") (some c1Resp) (String.toList ("error log"))
    false [] 0 7

/-- C1 counterexample: the adapter never coerces `confidence` into
[0,100].  A parsed response with `confidence: 150` passes the
presence-only validation, and the pipeline surfaces a successful analysis
whose confidence is 150 — outside [0,100]. -/
theorem c1_counterexample :
    c1Run.1.success = true ∧
    (∃ a, c1Run.1.analysis = some a ∧
      jLookup a "confidence" = some (.num 150)) ∧
    ¬ ((150 : Int) ≤ 100) :=
  ⟨rfl, ⟨_, rfl, rfl⟩, by decide⟩

/-- C1 amended: records built by the rule classifier and by the route
fallback do have all seven core fields populated with confidence in
[0,100]; the AI adapter, however, validates only the presence of the six
required fields — `relatedLogs` is not among them (a six-field response
is accepted) — and returns the parsed `confidence` unchanged, with no
range coercion, so out-of-range confidence can be surfaced (see the
counterexample). -/
theorem c1_amended :
    (∀ v : JSVal, Populated (classify (coerceInput v))) ∧
    (∀ e, Populated (routeFallbackAnalysis e)) ∧
    (∀ text fields, adapterParseValidate text = .ok fields →
      requiredFields.all (fun f => hasKey fields f) = true) ∧
    requiredFields.contains "relatedLogs" = false ∧
    (∃ fields, adapterParseValidate c6Obj = .ok fields ∧
      hasKey fields "relatedLogs" = false) :=
  ⟨fun _ => classify_populated _, fallback_populated, adapter_ok_has_required,
   by decide, c6Fields, rfl, by decide⟩

/-- Witness for C1 amended: the validation clause applied at a concrete
accepted response. -/
theorem c1_amended_witness :
    requiredFields.all (fun f => hasKey c6Fields f) = true :=
  c1_amended.2.2.1 c6Obj c6Fields rfl


/-! ## Claim C7 -/

lemma byteLen_replicate (n : Nat) : byteLen (List.replicate n 'a') = n := by
  induction n with
  | zero => rfl
  | succ k ih =>
    rw [List.replicate_succ]
    show ((('a' : Char) :: List.replicate k 'a').map Char.utf8Size).sum = k + 1
    rw [List.map_cons, List.sum_cons]
    have h1 : Char.utf8Size 'a' = 1 := rfl
    have ih2 : ((List.replicate k 'a').map Char.utf8Size).sum = k := ih
    rw [h1, ih2]
    omega

lemma jsTrim_replicate (n : Nat) :
    jsTrim (List.replicate (n + 1) 'a') = List.replicate (n + 1) 'a' := by
  have hdrop : List.dropWhile jsWs (List.replicate (n + 1) 'a') =
      List.replicate (n + 1) 'a' := by
    rw [List.replicate_succ, List.dropWhile_cons]
    rw [if_neg (by decide)]
  unfold jsTrim
  rw [hdrop, List.reverse_replicate, hdrop, List.reverse_replicate]

lemma gemFresh_cases (oracle : Option (List Char)) (log redacted : List Char)
    (h : String) (store : List (String × CacheEntry)) (tS tE : Nat)
    (steps : List Step) :
    ((gemFresh oracle log redacted h store tS tE steps).1.error = none ∨
     (gemFresh oracle log redacted h store tS tE steps).1.error =
       some .transport ∨
     ∃ e, (gemFresh oracle log redacted h store tS tE steps).1.error =
       some (.respFail e)) ∧
    ∃ more, (gemFresh oracle log redacted h store tS tE steps).2.2 =
      steps ++ more := by
  unfold gemFresh
  cases oracle with
  | none =>
    dsimp only
    exact ⟨Or.inr (Or.inl rfl), [.aiCall], rfl⟩
  | some text =>
    dsimp only
    cases hap : adapterParseValidate text with
    | error e =>
      exact ⟨Or.inr (Or.inr ⟨e, rfl⟩), [.aiCall], rfl⟩
    | ok fields =>
      exact ⟨Or.inl rfl, [.aiCall, .cacheSave], rfl⟩

/-- C7: input validation runs first.  Empty or whitespace-only input
fails with the EmptyInput error and input over `MAX_LOG_SIZE` UTF-8 bytes
fails with the TooLarge error, in both cases before any redaction,
fingerprinting, cache access or classifier work (the trace of performed
stages is empty and the cache is untouched); input of at most
`MAX_LOG_SIZE` bytes — in particular exactly `MAX_LOG_SIZE` — passes both
checks and the pipeline proceeds, starting with redaction. -/
theorem c7_input_validation (hashFn : List Char → String)
    (oracle : Option (List Char)) (log : List Char) (force : Bool)
    (store : List (String × CacheEntry)) (tS tE : Nat) :
    (jsTrim log = [] →
      gemAnalyzeWithAI hashFn oracle log force store tS tE =
        (gemError .emptyInput, store, [])) ∧
    (jsTrim log ≠ [] → byteLen log > MAX_LOG_SIZE →
      gemAnalyzeWithAI hashFn oracle log force store tS tE =
        (gemError .tooLarge, store, [])) ∧
    (jsTrim log ≠ [] → byteLen log ≤ MAX_LOG_SIZE →
      (gemAnalyzeWithAI hashFn oracle log force store tS tE).1.error ≠
          some .emptyInput ∧
      (gemAnalyzeWithAI hashFn oracle log force store tS tE).1.error ≠
          some .tooLarge ∧
      (gemAnalyzeWithAI hashFn oracle log force store tS tE).2.2.head? =
          some .redact) := by
  refine ⟨?_, ?_, ?_⟩
  · intro h
    unfold gemAnalyzeWithAI
    rw [if_pos h]
  · intro h1 h2
    unfold gemAnalyzeWithAI
    rw [if_neg h1, if_pos h2]
  · intro h1 h2
    unfold gemAnalyzeWithAI
    rw [if_neg h1, if_neg (by omega : ¬ byteLen log > MAX_LOG_SIZE)]
    dsimp only
    cases force with
    | true =>
      rw [if_pos rfl]
      have hc := gemFresh_cases oracle log (redactSensitiveInfo log)
        (hashFn (redactSensitiveInfo log)) store tS tE [.redact, .fingerprint]
      rcases hc with ⟨he, more, hsteps⟩
      refine ⟨?_, ?_, ?_⟩
      · rcases he with h | h | ⟨e, h⟩ <;> rw [h] <;> simp
      · rcases he with h | h | ⟨e, h⟩ <;> rw [h] <;> simp
      · rw [hsteps]; rfl
    | false =>
      rw [if_neg (by simp)]
      cases hg : getCachedResult store (hashFn (redactSensitiveInfo log)) tS with
      | some st => exact ⟨by simp, by simp, rfl⟩
      | none =>
        have hc := gemFresh_cases oracle log (redactSensitiveInfo log)
          (hashFn (redactSensitiveInfo log)) store tS tE
          [.redact, .fingerprint, .cacheGet]
        rcases hc with ⟨he, more, hsteps⟩
        refine ⟨?_, ?_, ?_⟩
        · rcases he with h | h | ⟨e, h⟩ <;> rw [h] <;> simp
        · rcases he with h | h | ⟨e, h⟩ <;> rw [h] <;> simp
        · rw [hsteps]; rfl

def c7Max : List Char := List.replicate MAX_LOG_SIZE 'a'

def c7Over : List Char := List.replicate (MAX_LOG_SIZE + 1) 'a'

lemma jsTrim_replicate_ne (n : Nat) : jsTrim (List.replicate (n + 1) 'a') ≠ [] := by
  rw [jsTrim_replicate]
  intro hcon
  have h2 := congrArg List.length hcon
  rw [List.length_replicate, List.length_nil] at h2
  exact Nat.succ_ne_zero n h2

lemma c7Max_trim : jsTrim c7Max ≠ [] := by
  have hMAX : MAX_LOG_SIZE = 5242879 + 1 := by norm_num [MAX_LOG_SIZE]
  unfold c7Max
  rw [hMAX]
  exact jsTrim_replicate_ne 5242879

lemma c7Over_trim : jsTrim c7Over ≠ [] := by
  unfold c7Over
  exact jsTrim_replicate_ne MAX_LOG_SIZE

/-- Witness for C7: whitespace-only input, input one byte over the
maximum, and input of exactly the maximum size. -/
theorem c7_input_validation_witness :
    gemAnalyzeWithAI (fun _ => "h") none (String.toList ("   ")) false [] 0 0 =
      (gemError .emptyInput, [], []) ∧
    gemAnalyzeWithAI (fun _ => "h") none c7Over false [] 0 0 =
      (gemError .tooLarge, [], []) ∧
    (gemAnalyzeWithAI (fun _ => "h") none c7Max false [] 0 0).1.error ≠
        some .tooLarge ∧
    (gemAnalyzeWithAI (fun _ => "h") none c7Max false [] 0 0).1.error ≠
        some .emptyInput := by
  refine ⟨?_, ?_, ?_, ?_⟩
  · exact (c7_input_validation (fun _ => "h") none (String.toList ("   "))
      false [] 0 0).1 (by decide)
  · exact (c7_input_validation (fun _ => "h") none c7Over false [] 0 0).2.1
      c7Over_trim (by unfold c7Over; rw [byteLen_replicate]; omega)
  · exact ((c7_input_validation (fun _ => "h") none c7Max false [] 0 0).2.2
      c7Max_trim (by unfold c7Max; rw [byteLen_replicate])).2.1
  · exact ((c7_input_validation (fun _ => "h") none c7Max false [] 0 0).2.2
      c7Max_trim (by unfold c7Max; rw [byteLen_replicate])).1


/-! ## Claim C8 -/

/-- C8: the cache never serves an expired entry.  For an entry present
under a hash, a `get` performed more than `CACHE_TTL` after the entry's
write time (its file mtime) returns absent, while the entry itself is
still stored (reads delete nothing); a `get` within the TTL still serves
the stored record — expiry is decided lazily on each read from the write
time. -/
theorem c8_cache_ttl_expiry (store : List (String × CacheEntry))
    (hash : String) (e : CacheEntry) (d : Nat)
    (hfound : storeLookup store hash = some e) (hexp : d > CACHE_TTL) :
    getCachedResult store hash (e.mtime + d) = none ∧
    storeLookup store hash = some e ∧
    (∀ d2, d2 ≤ CACHE_TTL →
      getCachedResult store hash (e.mtime + d2) = some e.data) := by
  refine ⟨?_, hfound, ?_⟩
  · unfold getCachedResult
    rw [hfound]
    dsimp only
    rw [Nat.add_sub_cancel_left]
    rw [if_pos hexp]
  · intro d2 hd2
    unfold getCachedResult
    rw [hfound]
    dsimp only
    rw [Nat.add_sub_cancel_left]
    rw [if_neg (by omega)]

def c8Entry : CacheEntry :=
  { mtime := 100
    data := { success := true, analysis := [], metadata := ⟨0, 0, false⟩,
              cachedAt := 100, expiresAt := 100 + CACHE_TTL } }

def c8Store : List (String × CacheEntry) := [("h", c8Entry)]

/-- Witness for C8: a concrete entry read one millisecond after the TTL
elapses is absent; read exactly at the TTL it is still served. -/
theorem c8_cache_ttl_expiry_witness :
    getCachedResult c8Store "h" (c8Entry.mtime + (CACHE_TTL + 1)) = none ∧
    getCachedResult c8Store "h" (c8Entry.mtime + CACHE_TTL) =
      some c8Entry.data :=
  ⟨(c8_cache_ttl_expiry c8Store "h" c8Entry (CACHE_TTL + 1) rfl
      (by omega)).1,
   (c8_cache_ttl_expiry c8Store "h" c8Entry (CACHE_TTL + 1) rfl
      (by omega)).2.2 CACHE_TTL (Nat.le_refl _)⟩

/-! ## Claim C9 -/

lemma storeLookup_storePut (store : List (String × CacheEntry))
    (h : String) (e : CacheEntry) :
    storeLookup (storePut store h e) h = some e := by
  induction store with
  | nil =>
    unfold storePut storeLookup
    simp [List.find?]
  | cons p t ih =>
    obtain ⟨h2, e2⟩ := p
    unfold storePut
    by_cases heq : h2 == h
    · rw [if_pos heq]
      unfold storeLookup
      simp [List.find?]
    · rw [if_neg heq]
      unfold storeLookup at ih ⊢
      simp only [List.find?_cons]
      rw [show ((h2, e2).1 == h) = false from by simpa using heq]
      exact ih

/-- C9: same text, `force = false`, twice within the TTL.  The first call
(cache miss, validated model response) succeeds and stores its result
under the fingerprint of the redacted text; the second call — whose model
oracle is arbitrary, since no model call happens — reports `cached: true`
and returns an analysis object identical to the first call's (including
its stored `processingTimeMs`), performing only redact, fingerprint and
cache-get. -/
theorem c9_cache_roundtrip (hashFn : List Char → String)
    (resp : List Char) (oracle2 : Option (List Char)) (log : List Char)
    (store : List (String × CacheEntry)) (t1s t1e t2s t2e : Nat)
    (hne : jsTrim log ≠ [])
    (hsize : byteLen log ≤ MAX_LOG_SIZE)
    (hmiss : getCachedResult store (hashFn (redactSensitiveInfo log)) t1s = none)
    (hok : (adapterParseValidate resp).isOk = true)
    (hfresh : t2s - t1e ≤ CACHE_TTL) :
    let r1 := gemAnalyzeWithAI hashFn (some resp) log false store t1s t1e
    let r2 := gemAnalyzeWithAI hashFn oracle2 log false r1.2.1 t2s t2e
    r1.1.success = true ∧ r1.1.cached = false ∧
    r2.1.success = true ∧ r2.1.cached = true ∧
    r2.1.analysis = r1.1.analysis ∧
    r2.2.2 = [.redact, .fingerprint, .cacheGet] := by
  obtain ⟨fields, hfields⟩ : ∃ f, adapterParseValidate resp = .ok f := by
    cases hap : adapterParseValidate resp with
    | ok f => exact ⟨f, rfl⟩
    | error e => rw [hap] at hok; simp [Except.isOk, Except.toBool] at hok
  have hsz : ¬ (byteLen log > MAX_LOG_SIZE) := by omega
  have hr1 : gemAnalyzeWithAI hashFn (some resp) log false store t1s t1e =
      ({ success := true,
         analysis := some (setField (setField (setField fields "logHash"
             (JVal.str (hashFn (redactSensitiveInfo log))))
           "analyzedAt" (JVal.num (Int.ofNat t1e)))
           "processingTimeMs" (JVal.num (Int.ofNat (t1e - t1s)))),
         metadata := some { logSize := log.length,
                            redactedLogSize := (redactSensitiveInfo log).length,
                            cacheHit := false },
         cached := false, error := none },
       saveToCache store (hashFn (redactSensitiveInfo log)) true
         (setField (setField (setField fields "logHash"
             (JVal.str (hashFn (redactSensitiveInfo log))))
           "analyzedAt" (JVal.num (Int.ofNat t1e)))
           "processingTimeMs" (JVal.num (Int.ofNat (t1e - t1s))))
         { logSize := log.length,
           redactedLogSize := (redactSensitiveInfo log).length,
           cacheHit := false } t1e,
       [.redact, .fingerprint, .cacheGet, .aiCall, .cacheSave]) := by
    unfold gemAnalyzeWithAI
    rw [if_neg hne, if_neg hsz]
    dsimp only
    rw [if_neg (by decide : ¬ ((false : Bool) = true))]
    rw [hmiss]
    unfold gemFresh
    dsimp only
    rw [hfields]
    rfl
  have hput := storeLookup_storePut store (hashFn (redactSensitiveInfo log))
    { mtime := t1e
      data := { success := true
                analysis := setField (setField (setField fields "logHash"
                    (JVal.str (hashFn (redactSensitiveInfo log))))
                  "analyzedAt" (JVal.num (Int.ofNat t1e)))
                  "processingTimeMs" (JVal.num (Int.ofNat (t1e - t1s)))
                metadata := { logSize := log.length,
                              redactedLogSize := (redactSensitiveInfo log).length,
                              cacheHit := false }
                cachedAt := t1e
                expiresAt := t1e + CACHE_TTL } }
  have hget2 : getCachedResult (saveToCache store
      (hashFn (redactSensitiveInfo log)) true
      (setField (setField (setField fields "logHash"
          (JVal.str (hashFn (redactSensitiveInfo log))))
        "analyzedAt" (JVal.num (Int.ofNat t1e)))
        "processingTimeMs" (JVal.num (Int.ofNat (t1e - t1s))))
      { logSize := log.length,
        redactedLogSize := (redactSensitiveInfo log).length,
        cacheHit := false } t1e)
      (hashFn (redactSensitiveInfo log)) t2s =
      some { success := true
             analysis := setField (setField (setField fields "logHash"
                 (JVal.str (hashFn (redactSensitiveInfo log))))
               "analyzedAt" (JVal.num (Int.ofNat t1e)))
               "processingTimeMs" (JVal.num (Int.ofNat (t1e - t1s)))
             metadata := { logSize := log.length,
                           redactedLogSize := (redactSensitiveInfo log).length,
                           cacheHit := false }
             cachedAt := t1e
             expiresAt := t1e + CACHE_TTL } := by
    unfold getCachedResult saveToCache
    rw [hput]
    dsimp only
    rw [if_neg (by omega : ¬ (t2s - t1e > CACHE_TTL))]
  dsimp only
  rw [hr1]
  dsimp only
  have hr2 : gemAnalyzeWithAI hashFn oracle2 log false
      (saveToCache store (hashFn (redactSensitiveInfo log)) true
        (setField (setField (setField fields "logHash"
            (JVal.str (hashFn (redactSensitiveInfo log))))
          "analyzedAt" (JVal.num (Int.ofNat t1e)))
          "processingTimeMs" (JVal.num (Int.ofNat (t1e - t1s))))
        { logSize := log.length,
          redactedLogSize := (redactSensitiveInfo log).length,
          cacheHit := false } t1e) t2s t2e =
      ({ success := true,
         analysis := some (setField (setField (setField fields "logHash"
             (JVal.str (hashFn (redactSensitiveInfo log))))
           "analyzedAt" (JVal.num (Int.ofNat t1e)))
           "processingTimeMs" (JVal.num (Int.ofNat (t1e - t1s)))),
         metadata := some { logSize := log.length,
                            redactedLogSize := (redactSensitiveInfo log).length,
                            cacheHit := false },
         cached := true, error := none },
       saveToCache store (hashFn (redactSensitiveInfo log)) true
         (setField (setField (setField fields "logHash"
             (JVal.str (hashFn (redactSensitiveInfo log))))
           "analyzedAt" (JVal.num (Int.ofNat t1e)))
           "processingTimeMs" (JVal.num (Int.ofNat (t1e - t1s))))
         { logSize := log.length,
           redactedLogSize := (redactSensitiveInfo log).length,
           cacheHit := false } t1e,
       [.redact, .fingerprint, .cacheGet]) := by
    unfold gemAnalyzeWithAI
    rw [if_neg hne, if_neg hsz]
    dsimp only
    rw [if_neg (by decide : ¬ ((false : Bool) = true))]
    rw [hget2]
  rw [hr2]
  exact ⟨rfl, rfl, rfl, rfl, rfl, rfl⟩

def c9Log : List Char := String.toList ("error here")

/-- Witness for C9 at a concrete log, response and clock values. -/
theorem c9_cache_roundtrip_witness :
    (let r1 := gemAnalyzeWithAI (fun _ => "h") (some c6Obj) c9Log false [] 0 5
     let r2 := gemAnalyzeWithAI (fun _ => "h") none c9Log false r1.2.1 10 12
     r2.1.cached = true ∧ r2.1.analysis = r1.1.analysis) := by
  have h := c9_cache_roundtrip (fun _ => "h") c6Obj none c9Log [] 0 5 10 12
    (by decide) (by decide) rfl rfl (by decide)
  exact ⟨h.2.2.2.1, h.2.2.2.2.1⟩


end LogAnalyzer
